import Mathlib

/-!
Verification of the catena request-pipeline core (`src/index.ts` and
`src/utils/error.ts`) against its natural-language specification.

The executor (`Handler.express` / `runNextChainItem` in `src/index.ts`) is a
single-threaded, strictly sequential chain driver: each step fully settles
before the next begins, so the asynchronous JS code is faithfully embedded as
a pure Lean function that threads the request, the response sink and the
accumulated context through the chain and records an observation log
(which steps ran, the context they were given, their outcomes, the writes
performed on the response, and every delegation to the host `next` callback).
-/

namespace Catena

/-- Model of a JavaScript runtime value, as far as the pipeline core observes
it: `undefined`, `null`, primitives (booleans, numbers, strings), arrays and
plain objects (ordered field lists). -/
inductive JSValue where
  | undefined : JSValue
  | null : JSValue
  | bool : Bool → JSValue
  | num : Int → JSValue
  | str : String → JSValue
  | arr : List JSValue → JSValue
  | obj : List (String × JSValue) → JSValue

/-- JS `typeof` operator restricted to the checks the source performs.
Note `typeof null` and `typeof []` are both the string "object". -/
def jsTypeof : JSValue → String
  | .undefined => "undefined"
  | .null => "object"
  | .bool _ => "boolean"
  | .num _ => "number"
  | .str _ => "string"
  | .arr _ => "object"
  | .obj _ => "object"

def jsIsUndef : JSValue → Bool
  | .undefined => true
  | _ => false

def jsIsNull : JSValue → Bool
  | .null => true
  | _ => false

/-- JS `Array.isArray`. -/
def jsIsArray : JSValue → Bool
  | .arr _ => true
  | _ => false

/-- Field lookup on an object value (`v[k]`); `none` when the key is absent
or the value is not an object. -/
def jsField (v : JSValue) (k : String) : Option JSValue :=
  match v with
  | .obj fs => (fs.find? (fun p => p.1 == k)).map Prod.snd
  | _ => none

/-- The accumulating per-execution context: a JS object, modelled as an
ordered association list (`src/index.ts` line 270: starts as `{}`). -/
abbrev Ctx := List (String × JSValue)

/-- JS object spread `{ ...a, ...b }`: every key of `b` overwrites the same
key of `a` (last write wins); keys only in `a` are kept. -/
def spreadMerge (a b : Ctx) : Ctx :=
  a.filter (fun p => (b.find? (fun q => q.1 == p.1)).isNone) ++ b

/-- Condition at `src/index.ts` lines 315-320: the returned value is appended
to the context only when it is a non-undefined, non-null, non-array value of
JS type "object" - i.e. exactly a plain object. -/
def isMergeableObject (v : JSValue) : Bool :=
  !jsIsUndef v && !jsIsNull v && (jsTypeof v == "object") && !jsIsArray v

def objFields : JSValue → Ctx
  | .obj fs => fs
  | _ => []

/-- Context update after one step (`src/index.ts` lines 313-322):
`context = { ...context, ...returnedContextValue }` when the return is a
plain object, otherwise the context is left unchanged. -/
def mergeReturn (c : Ctx) (v : JSValue) : Ctx :=
  if isMergeableObject v then spreadMerge c (objFields v) else c

/-- Errors the dispatch code distinguishes (`src/index.ts` lines 328-344):
the internal `ValidationError` class (statusCode hard-wired to 400 by its
constructor), the exported `HTTPError` class (`src/utils/error.ts`), and any
other thrown value (plain `Error`, `TypeError`, ...). A validation issue is
a `{message, path}` pair extracted from the schema engine's report. -/
structure ZodIssue where
  message : String
  path : List String

inductive JSError where
  | validationError : List ZodIssue → String → JSError
  | httpError : Nat → String → JSError
  | other : String → JSError

/-- The four request locations a validator may target. -/
inductive Location where
  | body
  | query
  | headers
  | params

def Location.name : Location → String
  | .body => "body"
  | .query => "query"
  | .headers => "headers"
  | .params => "params"

/-- The request object: the four validated locations (other request fields
are never read by the core). Steps can mutate it by reference. -/
structure Req where
  body : JSValue
  query : JSValue
  headers : JSValue
  params : JSValue

def Req.get (r : Req) : Location → JSValue
  | .body => r.body
  | .query => r.query
  | .headers => r.headers
  | .params => r.params

/-- One write performed on the response sink: `res.status(s).json(b)` or
`res.status(s).send(b)` (express uses the current status code, 200 by
default, at write time). -/
inductive Write where
  | jsonW : Nat → JSValue → Write
  | sendW : Nat → JSValue → Write

/-- The response sink: current status code, the `headersSent` flag and the
list of writes performed so far. -/
structure Res where
  statusCode : Nat := 200
  headersSent : Bool := false
  writes : List Write := []

def Res.setStatus (r : Res) (s : Nat) : Res :=
  { r with statusCode := s }

def Res.json (r : Res) (b : JSValue) : Res :=
  { r with headersSent := true, writes := r.writes ++ [Write.jsonW r.statusCode b] }

def Res.send (r : Res) (b : JSValue) : Res :=
  { r with headersSent := true, writes := r.writes ++ [Write.sendW r.statusCode b] }

/-- Argument a step may pass to the proceed (`next`) callback: nothing, an
Error instance, or any non-Error value. -/
inductive CallbackArg where
  | noArg : CallbackArg
  | errArg : JSError → CallbackArg
  | valArg : JSValue → CallbackArg

inductive CallbackEffect where
  | throws : JSError → CallbackEffect
  | noEffect : CallbackEffect

/-- The callback the executor hands to every step (`src/index.ts` lines
306-310): `(err) => { if (err instanceof Error) throw err }` - it throws its
argument inside the step when given an Error and does nothing otherwise. -/
def proceedSignal : CallbackArg → CallbackEffect
  | .errArg e => .throws e
  | _ => .noEffect

/-- Result of letting one step settle: every step may mutate the request and
respond on the sink, and it either resolves to a returned value or rejects
with an error. -/
inductive StepOutcome where
  | ret : JSValue → StepOutcome
  | threw : JSError → StepOutcome

structure StepEff where
  req : Req
  res : Res
  outcome : StepOutcome

/-- A chain entry: `(req, res, next, context) => value | throw`. -/
abbrev Step := Req → Res → (CallbackArg → CallbackEffect) → Ctx → StepEff

/-- The resolver: `(req, res, context) => data | throw` (its possible request
mutations are unobservable afterwards, so only `res` is threaded). -/
abbrev Resolver := Req → Res → Ctx → Res × StepOutcome

/-- The transformer: `(data, res) => payload | throw`. -/
abbrev Transformer := JSValue → Res → Res × StepOutcome

/-- The chain builder state (`Handler` class fields `_chain`, `_resolver`,
`_transformer`). -/
structure Handler where
  chain : List Step := []
  resolver : Option Resolver := none
  transformer : Option Transformer := none

/-- Wrapper pushed by `Handler.middleware` (`src/index.ts` lines 119-127):
when the user middleware resolves to `undefined` or `null` the wrapper
returns the old context object instead. -/
def wrapMiddleware (mw : Step) : Step := fun req res cb c =>
  let eff := mw req res cb c
  match eff.outcome with
  | .threw e => ⟨eff.req, eff.res, .threw e⟩
  | .ret v => if jsIsUndef v || jsIsNull v then ⟨eff.req, eff.res, .ret (.obj c)⟩ else eff

/-- Abstract schema: only the pass/fail/transform contract of the validation
engine is consumed (`zodObject.parse`); a raw field map is synthesised into
one combined schema at registration time, so a single parse function covers
both input forms. -/
structure Schema where
  parse : JSValue → Except (List ZodIssue) JSValue

/-- The validation step pushed by `Handler.validate` (`src/index.ts` lines
177-215): if the targeted location is not of JS type "object" it throws
`HTTPError(400, 'Invalid request body (not an object)')`; otherwise it runs
the schema's parse, discarding the parsed result, and either returns `{}`
(after signalling the proceed callback with no argument, which has no
effect) or throws a `ValidationError` built from the schema's issues. -/
def validationMiddleware (loc : Location) (schema : Schema) : Step :=
  fun req res _cb _c =>
    if jsTypeof (req.get loc) ≠ "object" then
      ⟨req, res, .threw (.httpError 400 "Invalid request body (not an object)")⟩
    else
      match schema.parse (req.get loc) with
      | .ok _ => ⟨req, res, .ret (.obj [])⟩
      | .error issues => ⟨req, res, .threw (.validationError issues loc.name)⟩

/-- Registration: `middleware(mw)` appends the wrapped middleware. -/
def Handler.middleware (h : Handler) (mw : Step) : Handler :=
  { h with chain := h.chain ++ [wrapMiddleware mw] }

/-- Registration: `validate(type, schema)` appends the validation step. -/
def Handler.validate (h : Handler) (loc : Location) (schema : Schema) : Handler :=
  { h with chain := h.chain ++ [validationMiddleware loc schema] }

/-- Registration: `resolve(fn)` stores the resolver (`this._resolver = fn`). -/
def Handler.resolve (h : Handler) (rf : Resolver) : Handler :=
  { h with resolver := some rf }

/-- Registration: `transform(fn)` stores the transformer. -/
def Handler.transform (h : Handler) (tf : Transformer) : Handler :=
  { h with transformer := some tf }

/-- Status-text table from `src/utils/error.ts` (`HTTPStatusText`); indexing
with an unlisted status yields JS `undefined`, modelled as `none`. -/
def HTTPStatusText : Nat → Option String
  | 200 => some "OK"
  | 400 => some "Bad Request"
  | 401 => some "Unauthorized"
  | 403 => some "Forbidden"
  | 404 => some "Not Found"
  | 500 => some "Internal Server Error"
  | _ => none

/-- The `type` field placed in dispatch bodies:
`HTTPStatusText[status]`, which is `undefined` for an unlisted status. -/
def typeField (s : Nat) : JSValue :=
  match HTTPStatusText s with
  | some t => .str t
  | none => .undefined

/-- Body written for a caught `ValidationError` (`src/index.ts` lines
330-334): `{ errors: [{message, path}, ...], location, type }`. -/
def validationErrorBody (errors : List ZodIssue) (location : String) : JSValue :=
  .obj [("errors", .arr (errors.map (fun e =>
          .obj [("message", .str e.message), ("path", .arr (e.path.map .str))]))),
        ("location", .str location),
        ("type", typeField 400)]

/-- Body written for a caught `HTTPError` (`src/index.ts` lines 336-339):
`{ errors: [message], type }`. -/
def httpErrorBody (status : Nat) (message : String) : JSValue :=
  .obj [("errors", .arr [.str message]), ("type", typeField status)]

/-- The error thrown by JS when `this._resolver` is undefined and the code
calls `this._resolver!(req, res, context)`. -/
def resolverMissingError : JSError :=
  .other "TypeError: this._resolver is not a function"

/-- Everything one execution of the chain makes observable: the final
response sink, every delegation to the host `next` callback, the log of
executed steps, whether the terminal resolver phase was entered, the
resolver and transformer invocations, and the final context. -/
structure StepLog where
  index : Nat
  ctxBefore : Ctx
  outcome : StepOutcome
  resAfter : Res

structure ExecOut where
  res : Res
  nextCalls : List JSError
  steps : List StepLog
  resolverPhaseEntered : Bool
  resolverLog : Option (Ctx × Res × StepOutcome)
  transformerLog : Option (JSValue × Res × StepOutcome)
  finalCtx : Ctx

/-- Success write of the transformer's return (`src/index.ts` lines 280-288):
nothing for `undefined`, `res.json` for a non-null value of JS type "object"
(arrays included), `res.send` otherwise. -/
def writeTransformed (r : Res) (tv : JSValue) : Res :=
  if jsIsUndef tv then r
  else if jsTypeof tv == "object" && !jsIsNull tv then r.json tv
  else r.send tv

/-- Terminal phase of the executor (`src/index.ts` lines 274-298): once the
chain is exhausted the resolver runs, then the optional transformer, then
the success write; ANY error escaping this `try` block - `HTTPError`
included - is passed to the host `next` callback. The tuple collects the
final sink, the `next` delegations and the resolver/transformer logs. -/
def resolverPhaseCore (h : Handler) (req : Req) (res : Res) (ctx : Ctx) :
    Res × List JSError × Option (Ctx × Res × StepOutcome)
      × Option (JSValue × Res × StepOutcome) :=
  match h.resolver with
  | none => (res, [resolverMissingError], none, none)
  | some rf =>
    match rf req res ctx with
    | (res1, .threw e) => (res1, [e], some (ctx, res1, .threw e), none)
    | (res1, .ret result) =>
      match h.transformer with
      | none => (res1, [], some (ctx, res1, .ret result), none)
      | some tf =>
        match tf result res1 with
        | (res2, .threw e) =>
            (res2, [e], some (ctx, res1, .ret result), some (result, res2, .threw e))
        | (res2, .ret tv) =>
            (writeTransformed res2 tv, [], some (ctx, res1, .ret result),
             some (result, res2, .ret tv))

def runResolverPhase (h : Handler) (req : Req) (res : Res) (ctx : Ctx) : ExecOut :=
  { res := (resolverPhaseCore h req res ctx).1,
    nextCalls := (resolverPhaseCore h req res ctx).2.1,
    steps := [],
    resolverPhaseEntered := true,
    resolverLog := (resolverPhaseCore h req res ctx).2.2.1,
    transformerLog := (resolverPhaseCore h req res ctx).2.2.2,
    finalCtx := ctx }

/-- Sink state after the catch block of one chain frame (`src/index.ts`
lines 328-345): `ValidationError` and `HTTPError` are answered on the sink,
anything else leaves the sink alone. -/
def dispatchRes (res1 : Res) : JSError → Res
  | .validationError errs loc => (res1.setStatus 400).json (validationErrorBody errs loc)
  | .httpError s1 m1 => (res1.setStatus s1).json (httpErrorBody s1 m1)
  | .other _ => res1

/-- Delegations performed by the catch block: only an unclassified error is
handed to the host `next`, unmodified. -/
def dispatchNext : JSError → List JSError
  | .validationError _ _ => []
  | .httpError _ _ => []
  | .other nm => [.other nm]

/-- The catch block of one chain frame, as the terminal execution record. -/
def dispatchError (idx : Nat) (ctx : Ctx) (res1 : Res) (e : JSError) : ExecOut :=
  { res := dispatchRes res1 e,
    nextCalls := dispatchNext e,
    steps := [⟨idx, ctx, .threw e, res1⟩],
    resolverPhaseEntered := false, resolverLog := none, transformerLog := none,
    finalCtx := ctx }

/-- One chain frame after the current step settled (`src/index.ts` lines
301-345): on a normal return the context is merged, then the `headersSent`
early-exit is honoured, then the next chain item runs; on a rejection the
catch block dispatches. `k` is the continuation running the rest of the
chain. -/
def runEff (k : Req → Res → Ctx → ExecOut) (idx : Nat) (ctx : Ctx) (eff : StepEff) :
    ExecOut :=
  match eff.outcome with
  | .threw e => dispatchError idx ctx eff.res e
  | .ret rv =>
    if eff.res.headersSent then
      { res := eff.res, nextCalls := [], steps := [⟨idx, ctx, .ret rv, eff.res⟩],
        resolverPhaseEntered := false, resolverLog := none, transformerLog := none,
        finalCtx := mergeReturn ctx rv }
    else
      let out := k eff.req eff.res (mergeReturn ctx rv)
      { out with steps := ⟨idx, ctx, .ret rv, eff.res⟩ :: out.steps }

/-- The recursive `runNextChainItem` (`src/index.ts` lines 272-346),
specialised to the list of steps still to run. -/
def runFrom (h : Handler) : List Step → Nat → Req → Res → Ctx → ExecOut
  | [], _idx, req, res, ctx => runResolverPhase h req res ctx
  | s :: rest, idx, req, res, ctx =>
      runEff (runFrom h rest (idx + 1)) idx ctx (s req res proceedSignal ctx)

/-- The handler produced by `Handler.express` applied to one request: index
starts at 0, the context starts empty, the response sink is fresh. -/
def Handler.express (h : Handler) (req : Req) : ExecOut :=
  runFrom h h.chain 0 req { statusCode := 200, headersSent := false, writes := [] } []

/-! Concrete fixtures used by the individual claim theorems below. -/

/-- Schema that accepts every value unchanged. -/
def schemaOk : Schema := ⟨fun v => .ok v⟩

/-- Request mirroring the `/resolver/:userId` route of the error-handling
test: `params = { userId: "1" }`, everything else empty. -/
def reqC1 : Req :=
  { body := .obj [], query := .obj [], headers := .obj [],
    params := .obj [("userId", .str "1")] }

/-- The `resolverErrorHandler` chain of the error-handling test: a passing
params validator, a resolver rejecting with `HTTPError(400, ...)`, and a
transformer that would return a payload. -/
def hC1r : Handler :=
  { chain := [validationMiddleware .params schemaOk],
    resolver := some (fun _ res _ =>
      (res, .threw (.httpError 400 "This should fail in resolver"))),
    transformer := some (fun _ res =>
      (res, .ret (.obj [("data", .obj [("name", .str "Hello World")]),
                        ("meta", .obj [])]))) }

/-- The `transformerErrorHandler` chain of the same test: the resolver
succeeds, the transformer rejects with `HTTPError(400, ...)`. -/
def hC1t : Handler :=
  { chain := [validationMiddleware .params schemaOk],
    resolver := some (fun _ res _ => (res, .ret (.str "ok"))),
    transformer := some (fun _ res =>
      (res, .threw (.httpError 400 "This should fail in transformer"))) }

/-- Request with all four locations empty objects. -/
def reqEmpty : Req :=
  { body := .obj [], query := .obj [], headers := .obj [], params := .obj [] }

/-- Resolver that returns nothing and leaves the sink untouched. -/
def rfOk : Resolver := fun _ res _ => (res, .ret .undefined)

/-- Schema with an output transform, as in the validation-transforms test:
validation succeeds but produces a value different from its input. -/
def schemaC3 : Schema := ⟨fun _ => .ok (.obj [("user", .str "TRANSFORMED")])⟩

/-- Probe middleware observing the request body seen by the step AFTER the
validator. -/
def probeC3 : Step := fun req res _cb _c => ⟨req, res, .ret (.obj [("seen", req.body)])⟩

def hC3 : Handler :=
  { chain := [validationMiddleware .body schemaC3, wrapMiddleware probeC3],
    resolver := some rfOk, transformer := none }

def reqC3 : Req :=
  { body := .obj [("user", .str "orig")], query := .obj [], headers := .obj [],
    params := .obj [] }

/-- Single body validator in front of a resolver, for the malformed-location
behaviour. -/
def hC5 : Handler :=
  { chain := [validationMiddleware .body schemaOk],
    resolver := some rfOk, transformer := none }

/-- Request whose body is a string, hence not of JS type "object". -/
def reqC5 : Req :=
  { body := .str "not-an-object", query := .obj [], headers := .obj [],
    params := .obj [] }

/-- The body the dispatch actually writes for a malformed location. -/
def c5body : JSValue :=
  .obj [("errors", .arr [.str "Invalid request body (not an object)"]),
        ("type", .str "Bad Request")]

/-- Middleware rejecting with `HTTPError(403, 'denied')`, writing nothing. -/
def stepThrow403 : Step := fun req res _cb _c =>
  ⟨req, res, .threw (.httpError 403 "denied")⟩

/-- Middleware returning nothing, writing nothing. -/
def stepPlain : Step := fun req res _cb _c => ⟨req, res, .ret .undefined⟩

def hW2 : Handler :=
  { chain := [stepThrow403, stepPlain], resolver := some rfOk, transformer := none }

/-- Log entry produced for the first step of `hW2`. -/
def logW2 : StepLog :=
  ⟨0, [], .threw (.httpError 403 "denied"),
   { statusCode := 200, headersSent := false, writes := [] }⟩

/-- Two context-producing middlewares: the second overwrites key "b". -/
def m1W4 : Step := fun req res _cb _c =>
  ⟨req, res, .ret (.obj [("a", .str "1"), ("b", .str "1")])⟩

def m2W4 : Step := fun req res _cb _c =>
  ⟨req, res, .ret (.obj [("b", .str "2")])⟩

def hW4 : Handler :=
  { chain := [m1W4, m2W4], resolver := some rfOk, transformer := none }

/-- Log entry produced for the second step of `hW4`. -/
def logW4 : StepLog :=
  ⟨1, [("a", .str "1"), ("b", .str "1")], .ret (.obj [("b", .str "2")]),
   { statusCode := 200, headersSent := false, writes := [] }⟩

/-- Middleware that answers the request itself (sets `headersSent`). -/
def stepWriteEarly : Step := fun req res _cb _c =>
  ⟨req, res.json (.str "early"), .ret .undefined⟩

def hW6 : Handler :=
  { chain := [stepWriteEarly, stepPlain], resolver := some rfOk, transformer := none }

/-- Log entry produced for the first step of `hW6`. -/
def logW6 : StepLog :=
  ⟨0, [], .ret .undefined,
   { statusCode := 200, headersSent := true, writes := [Write.jsonW 200 (.str "early")] }⟩

/-- Middleware rejecting with a plain (non-HTTP, non-validation) error. -/
def stepThrowOther : Step := fun req res _cb _c => ⟨req, res, .threw (.other "boom")⟩

def hW7a : Handler :=
  { chain := [stepThrowOther, stepPlain], resolver := some rfOk, transformer := none }

/-- Chainless handler whose resolver rejects with a plain error. -/
def hW7b : Handler :=
  { chain := [], resolver := some (fun _ res _ => (res, .threw (.other "boomr"))),
    transformer := none }

/-- Chainless handler whose transformer rejects with a plain error. -/
def hW7c : Handler :=
  { chain := [], resolver := some (fun _ res _ => (res, .ret (.str "data"))),
    transformer := some (fun _ res => (res, .threw (.other "boomt"))) }

/-- Middleware rejecting with an `HTTPError` whose status 418 is absent from
the status-text table. -/
def stepThrow418 : Step := fun req res _cb _c =>
  ⟨req, res, .threw (.httpError 418 "teapot")⟩

def hW8 : Handler :=
  { chain := [stepThrow418], resolver := some rfOk, transformer := none }

/-- Two observably different resolvers (they disagree on the status code of
the sink they return). -/
def r1C9 : Resolver := fun _ res _ => (res.setStatus 201, .ret .undefined)

def r2C9 : Resolver := fun _ res _ => (res.setStatus 202, .ret .undefined)

def hW10 : Handler :=
  { chain := [stepPlain], resolver := some rfOk, transformer := none }

/-- Log entry produced for the single step of `hW10` (and of step 0 of
`hW4`-like runs with no writes). -/
def logW10 : StepLog :=
  ⟨0, [], .ret .undefined, { statusCode := 200, headersSent := false, writes := [] }⟩

/-- Steps of a list that never touch the response sink (true of validators
and of ordinary context-producing middlewares). -/
def NoWriteSteps (l : List Step) : Prop :=
  ∀ s ∈ l, ∀ req res cb c, (s req res cb c).res = res

/-- Chains all of whose steps never touch the response sink. -/
def StepsNoWrite (h : Handler) : Prop := NoWriteSteps h.chain

/-- Specification-level context recurrence: the effect of one logged step
outcome on the context - the merge rule of `src/index.ts` lines 313-322 for
a normal return, no change for a rejection. -/
def applyReturn (c : Ctx) : StepOutcome → Ctx
  | .ret v => mergeReturn c v
  | .threw _ => c

/-- The fresh response sink handed to every execution. -/
def resInit : Res := { statusCode := 200, headersSent := false, writes := [] }

/-- Log entry produced for the first step of `hW7a`. -/
def logW7a : StepLog := ⟨0, [], .threw (.other "boom"), resInit⟩

/-- Log entry produced for the first step of `hW8`. -/
def logW8 : StepLog := ⟨0, [], .threw (.httpError 418 "teapot"), resInit⟩

/-! Theorems. Each claim of the specification is settled by exactly one
theorem below; shared facts about `runFrom` are proved as helper lemmas. -/

/-- C1: the specification claims that when the Resolver or the Transformer
rejects with an `HTTPError` carrying status S and message M, the error
dispatch answers with status S and body `{ errors: [M], type: ... }`. The
code does not: the catch around the resolver/transformer phase
(`src/index.ts` lines 294-297) hands EVERY error - `HTTPError` included - to
the host `next` callback and writes nothing. This theorem evaluates the
executor on the fixtures of the repository's own error-handling test
(resolver rejecting, then transformer rejecting, with `HTTPError(400, ...)`)
and shows the outcome is a bare delegation with zero core-authored writes,
contradicting both the claim and the test's expected 400 JSON response. -/
theorem catena_c1_code_divergence :
    ((hC1r.express reqC1).nextCalls = [JSError.httpError 400 "This should fail in resolver"]
      ∧ (hC1r.express reqC1).res.writes = []
      ∧ (hC1r.express reqC1).res.headersSent = false)
  ∧ ((hC1t.express reqC1).nextCalls = [JSError.httpError 400 "This should fail in transformer"]
      ∧ (hC1t.express reqC1).res.writes = []
      ∧ (hC1t.express reqC1).res.headersSent = false) :=
  ⟨⟨rfl, rfl, rfl⟩, ⟨rfl, rfl, rfl⟩⟩

/-- C3: the specification claims that after a successful validation the
targeted request location becomes the validated, possibly schema-transformed
value for all subsequent steps and the resolver. The code calls
`schema.parse(value)` and discards the parsed result (`src/index.ts` lines
196 and 203), so the location keeps its original value. Here the schema
accepts the body `{user: "orig"}` and produces `{user: "TRANSFORMED"}`, yet
the probe middleware that runs after the validator still observes the
original body - contradicting the claim and the expectations of the
validation-transforms test. -/
theorem catena_c3_code_divergence :
    schemaC3.parse (.obj [("user", .str "orig")])
        = Except.ok (.obj [("user", .str "TRANSFORMED")])
  ∧ (hC3.express reqC3).steps.map StepLog.outcome
        = [.ret (.obj []), .ret (.obj [("seen", .obj [("user", .str "orig")])])]
  ∧ (hC3.express reqC3).finalCtx = [("seen", .obj [("user", .str "orig")])] :=
  ⟨rfl, rfl, rfl⟩

/-- C5 counterexample: the claim says a validator whose target location is
not object-shaped fails with a VALIDATION failure, i.e. a 400 response of
shape `{ errors: [{message, path}, ...], location, type }`. On a string
body the code instead throws `HTTPError(400, 'Invalid request body (not an
object)')`, so the written 400 body is `{ errors: [string], type }` - its
`errors` entries are bare strings and it has no `location` field. -/
theorem catena_c5_counterexample :
    (hC5.express reqC5).res.writes = [Write.jsonW 400 c5body]
  ∧ (hC5.express reqC5).res.statusCode = 400
  ∧ jsField c5body "location" = none
  ∧ jsField c5body "errors" = some (.arr [.str "Invalid request body (not an object)"]) :=
  ⟨rfl, rfl, rfl, rfl⟩

/-- C5 (amended): for every validator step whose target location holds a
value that is not of JS type "object", the step throws
`HTTPError(400, 'Invalid request body (not an object)')` independent of the
schema, so the chain answers with status 400 and the application-error body
`{ errors: ['Invalid request body (not an object)'], type: 'Bad Request' }`
(no `location` field), the validator is the only step that runs, and the
resolver phase is never entered. -/
theorem catena_c5 (loc : Location) (sch : Schema) (rf : Resolver) (req : Req)
    (hmal : jsTypeof (req.get loc) ≠ "object") :
    (Handler.express
        { chain := [validationMiddleware loc sch], resolver := some rf,
          transformer := none } req).res.writes
        = [Write.jsonW 400 (httpErrorBody 400 "Invalid request body (not an object)")]
  ∧ (Handler.express
        { chain := [validationMiddleware loc sch], resolver := some rf,
          transformer := none } req).res.statusCode = 400
  ∧ (Handler.express
        { chain := [validationMiddleware loc sch], resolver := some rf,
          transformer := none } req).steps.length = 1
  ∧ (Handler.express
        { chain := [validationMiddleware loc sch], resolver := some rf,
          transformer := none } req).resolverPhaseEntered = false := by
  simp [Handler.express, runFrom, runEff, validationMiddleware, hmal, dispatchError,
    dispatchRes, Res.setStatus, Res.json]

/-- C5 witness: the amended theorem applied to the concrete string-bodied
request. -/
theorem catena_c5_witness :
    (Handler.express
        { chain := [validationMiddleware .body schemaOk], resolver := some rfOk,
          transformer := none } reqC5).res.writes
        = [Write.jsonW 400 (httpErrorBody 400 "Invalid request body (not an object)")]
  ∧ (Handler.express
        { chain := [validationMiddleware .body schemaOk], resolver := some rfOk,
          transformer := none } reqC5).res.statusCode = 400
  ∧ (Handler.express
        { chain := [validationMiddleware .body schemaOk], resolver := some rfOk,
          transformer := none } reqC5).steps.length = 1
  ∧ (Handler.express
        { chain := [validationMiddleware .body schemaOk], resolver := some rfOk,
          transformer := none } reqC5).resolverPhaseEntered = false :=
  catena_c5 .body schemaOk rfOk reqC5 (by decide)

/-- Helper: when the step logged at position k of a run rejected with error
e, that frame's catch block produced the terminal outcome: the sink is the
dispatch of e over the step's own sink state, the delegations are exactly
the dispatch delegations, no later step ran, and the resolver phase was
never entered. -/
theorem runFrom_threw (h : Handler) :
    ∀ (steps : List Step) (idx : Nat) (req : Req) (res : Res) (ctx : Ctx)
      (k : Nat) (l : StepLog) (e : JSError),
      (runFrom h steps idx req res ctx).steps[k]? = some l →
      l.outcome = .threw e →
      (runFrom h steps idx req res ctx).res = dispatchRes l.resAfter e
      ∧ (runFrom h steps idx req res ctx).nextCalls = dispatchNext e
      ∧ (runFrom h steps idx req res ctx).steps.length = k + 1
      ∧ (runFrom h steps idx req res ctx).resolverPhaseEntered = false
      ∧ (runFrom h steps idx req res ctx).resolverLog = none
      ∧ (runFrom h steps idx req res ctx).transformerLog = none := by
  intro steps
  induction steps with
  | nil =>
    intro idx req res ctx k l e hl _ho
    simp [runFrom, runResolverPhase] at hl
  | cons s rest ih =>
    intro idx req res ctx k l e hl ho
    rcases hEff : s req res proceedSignal ctx with ⟨req1, res1, o⟩
    simp only [runFrom] at hl ⊢
    rw [hEff] at hl ⊢
    cases o with
    | threw e1 =>
      simp only [runEff, dispatchError] at hl ⊢
      cases k with
      | zero =>
        simp only [List.getElem?_cons_zero, Option.some.injEq] at hl
        subst hl
        simp only at ho
        cases ho
        simp
      | succ k1 =>
        simp at hl
    | ret rv =>
      simp only [runEff] at hl ⊢
      cases hhs : res1.headersSent with
      | true =>
        simp only [hhs, if_true] at hl ⊢
        cases k with
        | zero =>
          simp only [List.getElem?_cons_zero, Option.some.injEq] at hl
          subst hl
          simp at ho
        | succ k1 =>
          simp at hl
      | false =>
        simp only [hhs, Bool.false_eq_true, if_false] at hl ⊢
        cases k with
        | zero =>
          simp only [List.getElem?_cons_zero, Option.some.injEq] at hl
          subst hl
          simp at ho
        | succ k1 =>
          simp only [List.getElem?_cons_succ] at hl
          obtain ⟨h1, h2, h3, h4, h5, h6⟩ :=
            ih (idx + 1) req1 res1 (mergeReturn ctx rv) k1 l e hl ho
          exact ⟨h1, h2, by simp [h3], h4, h5, h6⟩

/-- Helper: when no step of the chain touches the response sink, every
logged step leaves the sink exactly as the run received it. -/
theorem runFrom_noWrite_resAfter (h : Handler) :
    ∀ (steps : List Step) (idx : Nat) (req : Req) (res : Res) (ctx : Ctx),
      NoWriteSteps steps →
      ∀ (k : Nat) (l : StepLog),
        (runFrom h steps idx req res ctx).steps[k]? = some l →
        l.resAfter = res := by
  intro steps
  induction steps with
  | nil =>
    intro idx req res ctx _hw k l hl
    simp [runFrom, runResolverPhase] at hl
  | cons s rest ih =>
    intro idx req res ctx hw k l hl
    have hres1 : (s req res proceedSignal ctx).res = res :=
      hw s (List.mem_cons_self s rest) req res proceedSignal ctx
    rcases hEff : s req res proceedSignal ctx with ⟨req1, res1, o⟩
    rw [hEff] at hres1
    simp only at hres1
    subst hres1
    simp only [runFrom] at hl
    rw [hEff] at hl
    cases o with
    | threw e1 =>
      simp only [runEff, dispatchError] at hl
      cases k with
      | zero =>
        simp only [List.getElem?_cons_zero, Option.some.injEq] at hl
        subst hl
        rfl
      | succ k1 => simp at hl
    | ret rv =>
      simp only [runEff] at hl
      cases hhs : res1.headersSent with
      | true =>
        simp only [hhs, if_true] at hl
        cases k with
        | zero =>
          simp only [List.getElem?_cons_zero, Option.some.injEq] at hl
          subst hl
          rfl
        | succ k1 => simp at hl
      | false =>
        simp only [hhs, Bool.false_eq_true, if_false] at hl
        cases k with
        | zero =>
          simp only [List.getElem?_cons_zero, Option.some.injEq] at hl
          subst hl
          rfl
        | succ k1 =>
          simp only [List.getElem?_cons_succ] at hl
          exact ih (idx + 1) req1 res1 (mergeReturn ctx rv)
            (fun s1 hs1 => hw s1 (List.mem_cons_of_mem s hs1)) k1 l hl

/-- Helper: the resolver, when invoked, is invoked with the context the
terminal phase received. -/
theorem resolverPhaseCore_log_ctx (h : Handler) (req : Req) (res : Res) (ctx : Ctx)
    (c : Ctx) (r : Res) (o : StepOutcome) :
    (resolverPhaseCore h req res ctx).2.2.1 = some (c, r, o) → c = ctx := by
  intro hx
  unfold resolverPhaseCore at hx
  rcases hres : h.resolver with _ | rf
  · rw [hres] at hx
    simp at hx
  · rw [hres] at hx
    dsimp only at hx
    rcases hr : rf req res ctx with ⟨res1, o1⟩
    rw [hr] at hx
    cases o1 with
    | threw e1 =>
      simp only [Prod.mk.injEq, Option.some.injEq] at hx
      exact hx.1.symm
    | ret result =>
      rcases htf : h.transformer with _ | tf
      · rw [htf] at hx
        simp only [Prod.mk.injEq, Option.some.injEq] at hx
        exact hx.1.symm
      · rw [htf] at hx
        dsimp only at hx
        rcases ht2 : tf result res1 with ⟨res2, o2⟩
        rw [ht2] at hx
        cases o2 with
        | threw e2 =>
          simp only [Prod.mk.injEq, Option.some.injEq] at hx
          exact hx.1.symm
        | ret tv =>
          simp only [Prod.mk.injEq, Option.some.injEq] at hx
          exact hx.1.symm

/-- Helper: along any run, the context handed to the step logged at
position k is the fold of `applyReturn` over the outcomes of the steps
logged before it, and the resolver receives the fold over all of them. -/
theorem runFrom_ctx_fold (h : Handler) :
    ∀ (steps : List Step) (idx : Nat) (req : Req) (res : Res) (ctx : Ctx),
      (∀ (k : Nat) (l : StepLog),
        (runFrom h steps idx req res ctx).steps[k]? = some l →
        l.ctxBefore = List.foldl applyReturn ctx
          (((runFrom h steps idx req res ctx).steps.take k).map StepLog.outcome))
      ∧ (∀ (c : Ctx) (r : Res) (o : StepOutcome),
          (runFrom h steps idx req res ctx).resolverLog = some (c, r, o) →
          c = List.foldl applyReturn ctx
            ((runFrom h steps idx req res ctx).steps.map StepLog.outcome)) := by
  intro steps
  induction steps with
  | nil =>
    intro idx req res ctx
    constructor
    · intro k l hl
      simp [runFrom, runResolverPhase] at hl
    · intro c r o hlog
      simp only [runFrom, runResolverPhase] at hlog ⊢
      simp only [List.map_nil, List.foldl_nil]
      exact resolverPhaseCore_log_ctx h req res ctx c r o hlog
  | cons s rest ih =>
    intro idx req res ctx
    rcases hEff : s req res proceedSignal ctx with ⟨req1, res1, o1⟩
    constructor
    · intro k l hl
      simp only [runFrom] at hl ⊢
      rw [hEff] at hl ⊢
      cases o1 with
      | threw e1 =>
        simp only [runEff, dispatchError] at hl ⊢
        cases k with
        | zero =>
          simp only [List.getElem?_cons_zero, Option.some.injEq] at hl
          subst hl
          simp
        | succ k1 => simp at hl
      | ret rv =>
        simp only [runEff] at hl ⊢
        cases hhs : res1.headersSent with
        | true =>
          simp only [hhs, if_true] at hl ⊢
          cases k with
          | zero =>
            simp only [List.getElem?_cons_zero, Option.some.injEq] at hl
            subst hl
            simp
          | succ k1 => simp at hl
        | false =>
          simp only [hhs, Bool.false_eq_true, if_false] at hl ⊢
          cases k with
          | zero =>
            simp only [List.getElem?_cons_zero, Option.some.injEq] at hl
            subst hl
            simp
          | succ k1 =>
            simp only [List.getElem?_cons_succ] at hl
            have h1 := (ih (idx + 1) req1 res1 (mergeReturn ctx rv)).1 k1 l hl
            simpa [applyReturn] using h1
    · intro c r o hlog
      simp only [runFrom] at hlog ⊢
      rw [hEff] at hlog ⊢
      cases o1 with
      | threw e1 =>
        simp only [runEff, dispatchError] at hlog
        simp at hlog
      | ret rv =>
        simp only [runEff] at hlog ⊢
        cases hhs : res1.headersSent with
        | true =>
          simp only [hhs, if_true] at hlog
          simp at hlog
        | false =>
          simp only [hhs, Bool.false_eq_true, if_false] at hlog ⊢
          have h2 := (ih (idx + 1) req1 res1 (mergeReturn ctx rv)).2 c r o hlog
          simpa [applyReturn] using h2

/-- Helper: a step that settles normally with the sink already reporting
`headersSent` is the last thing that happens: the run returns that sink
unchanged, delegates nothing, and never reaches the resolver phase. -/
theorem runFrom_headersSent (h : Handler) :
    ∀ (steps : List Step) (idx : Nat) (req : Req) (res : Res) (ctx : Ctx)
      (k : Nat) (l : StepLog) (v : JSValue),
      (runFrom h steps idx req res ctx).steps[k]? = some l →
      l.outcome = .ret v →
      l.resAfter.headersSent = true →
      (runFrom h steps idx req res ctx).res = l.resAfter
      ∧ (runFrom h steps idx req res ctx).nextCalls = []
      ∧ (runFrom h steps idx req res ctx).steps.length = k + 1
      ∧ (runFrom h steps idx req res ctx).resolverPhaseEntered = false
      ∧ (runFrom h steps idx req res ctx).resolverLog = none
      ∧ (runFrom h steps idx req res ctx).transformerLog = none := by
  intro steps
  induction steps with
  | nil =>
    intro idx req res ctx k l v hl _ho _hs
    simp [runFrom, runResolverPhase] at hl
  | cons s rest ih =>
    intro idx req res ctx k l v hl ho hsent
    rcases hEff : s req res proceedSignal ctx with ⟨req1, res1, o1⟩
    simp only [runFrom] at hl ⊢
    rw [hEff] at hl ⊢
    cases o1 with
    | threw e1 =>
      simp only [runEff, dispatchError] at hl ⊢
      cases k with
      | zero =>
        simp only [List.getElem?_cons_zero, Option.some.injEq] at hl
        subst hl
        simp at ho
      | succ k1 => simp at hl
    | ret rv =>
      simp only [runEff] at hl ⊢
      cases hhs : res1.headersSent with
      | true =>
        simp only [hhs, if_true] at hl ⊢
        cases k with
        | zero =>
          simp only [List.getElem?_cons_zero, Option.some.injEq] at hl
          subst hl
          simp
        | succ k1 => simp at hl
      | false =>
        simp only [hhs, Bool.false_eq_true, if_false] at hl ⊢
        cases k with
        | zero =>
          simp only [List.getElem?_cons_zero, Option.some.injEq] at hl
          subst hl
          simp only at hsent
          rw [hhs] at hsent
          cases hsent
        | succ k1 =>
          simp only [List.getElem?_cons_succ] at hl
          obtain ⟨h1, h2, h3, h4, h5, h6⟩ :=
            ih (idx + 1) req1 res1 (mergeReturn ctx rv) k1 l v hl ho hsent
          exact ⟨h1, h2, by simp [h3], h4, h5, h6⟩

/-- Helper: exhaustive enumeration of the five outcomes of the terminal
resolver/transformer phase. -/
theorem resolverPhaseCore_cases (h : Handler) (req : Req) (res : Res) (ctx : Ctx) :
    (resolverPhaseCore h req res ctx = (res, [resolverMissingError], none, none))
  ∨ (∃ rf res1 e, h.resolver = some rf ∧ rf req res ctx = (res1, .threw e) ∧
      resolverPhaseCore h req res ctx = (res1, [e], some (ctx, res1, .threw e), none))
  ∨ (∃ rf res1 result, h.resolver = some rf ∧ rf req res ctx = (res1, .ret result) ∧
      h.transformer = none ∧
      resolverPhaseCore h req res ctx = (res1, [], some (ctx, res1, .ret result), none))
  ∨ (∃ rf res1 result tf res2 e, h.resolver = some rf ∧
      rf req res ctx = (res1, .ret result) ∧ h.transformer = some tf ∧
      tf result res1 = (res2, .threw e) ∧
      resolverPhaseCore h req res ctx
        = (res2, [e], some (ctx, res1, .ret result), some (result, res2, .threw e)))
  ∨ (∃ rf res1 result tf res2 tv, h.resolver = some rf ∧
      rf req res ctx = (res1, .ret result) ∧ h.transformer = some tf ∧
      tf result res1 = (res2, .ret tv) ∧
      resolverPhaseCore h req res ctx
        = (writeTransformed res2 tv, [], some (ctx, res1, .ret result),
           some (result, res2, .ret tv))) := by
  rcases hres : h.resolver with _ | rf
  · exact Or.inl (by simp [resolverPhaseCore, hres])
  · rcases hr : rf req res ctx with ⟨res1, o1⟩
    cases o1 with
    | threw e1 =>
      exact Or.inr (Or.inl ⟨rf, res1, e1, rfl, hr, by simp [resolverPhaseCore, hres, hr]⟩)
    | ret result =>
      rcases htf : h.transformer with _ | tf
      · exact Or.inr (Or.inr (Or.inl ⟨rf, res1, result, rfl, hr, rfl,
          by simp [resolverPhaseCore, hres, hr, htf]⟩))
      · rcases ht2 : tf result res1 with ⟨res2, o2⟩
        cases o2 with
        | threw e2 =>
          exact Or.inr (Or.inr (Or.inr (Or.inl ⟨rf, res1, result, tf, res2, e2, rfl, hr,
            rfl, ht2, by simp [resolverPhaseCore, hres, hr, htf, ht2]⟩)))
        | ret tv =>
          exact Or.inr (Or.inr (Or.inr (Or.inr ⟨rf, res1, result, tf, res2, tv, rfl, hr,
            rfl, ht2, by simp [resolverPhaseCore, hres, hr, htf, ht2]⟩)))

/-- Helper: a resolver rejection is delegated to the host `next` as-is and
the phase performs no write of its own. -/
theorem resolverPhaseCore_resolver_threw (h : Handler) (req : Req) (res : Res) (ctx : Ctx)
    (c : Ctx) (r : Res) (e : JSError) :
    (resolverPhaseCore h req res ctx).2.2.1 = some (c, r, .threw e) →
    (resolverPhaseCore h req res ctx).2.1 = [e] ∧ (resolverPhaseCore h req res ctx).1 = r := by
  intro hx
  rcases resolverPhaseCore_cases h req res ctx with hcore |
    ⟨rf, res1, e1, -, -, hcore⟩ | ⟨rf, res1, result, -, -, -, hcore⟩ |
    ⟨rf, res1, result, tf, res2, e2, -, -, -, -, hcore⟩ |
    ⟨rf, res1, result, tf, res2, tv, -, -, -, -, hcore⟩ <;>
    rw [hcore] at hx ⊢ <;> simp_all

/-- Helper: a transformer rejection is delegated to the host `next` as-is
and the phase performs no write of its own. -/
theorem resolverPhaseCore_transformer_threw (h : Handler) (req : Req) (res : Res) (ctx : Ctx)
    (d : JSValue) (r : Res) (e : JSError) :
    (resolverPhaseCore h req res ctx).2.2.2 = some (d, r, .threw e) →
    (resolverPhaseCore h req res ctx).2.1 = [e] ∧ (resolverPhaseCore h req res ctx).1 = r := by
  intro hx
  rcases resolverPhaseCore_cases h req res ctx with hcore |
    ⟨rf, res1, e1, -, -, hcore⟩ | ⟨rf, res1, result, -, -, -, hcore⟩ |
    ⟨rf, res1, result, tf, res2, e2, -, -, -, -, hcore⟩ |
    ⟨rf, res1, result, tf, res2, tv, -, -, -, -, hcore⟩ <;>
    rw [hcore] at hx ⊢ <;> simp_all

/-- Helper: lift of the resolver-rejection fact through the whole chain
run. -/
theorem runFrom_resolverLog_threw (h : Handler) :
    ∀ (steps : List Step) (idx : Nat) (req : Req) (res : Res) (ctx : Ctx)
      (c : Ctx) (r : Res) (e : JSError),
      (runFrom h steps idx req res ctx).resolverLog = some (c, r, .threw e) →
      (runFrom h steps idx req res ctx).nextCalls = [e]
      ∧ (runFrom h steps idx req res ctx).res = r := by
  intro steps
  induction steps with
  | nil =>
    intro idx req res ctx c r e hx
    simp only [runFrom, runResolverPhase] at hx ⊢
    exact resolverPhaseCore_resolver_threw h req res ctx c r e hx
  | cons s rest ih =>
    intro idx req res ctx c r e hx
    rcases hEff : s req res proceedSignal ctx with ⟨req1, res1, o1⟩
    simp only [runFrom] at hx ⊢
    rw [hEff] at hx ⊢
    cases o1 with
    | threw e1 =>
      simp only [runEff, dispatchError] at hx
      simp at hx
    | ret rv =>
      simp only [runEff] at hx ⊢
      cases hhs : res1.headersSent with
      | true =>
        simp only [hhs, if_true] at hx
        simp at hx
      | false =>
        simp only [hhs, Bool.false_eq_true, if_false] at hx ⊢
        exact ih (idx + 1) req1 res1 (mergeReturn ctx rv) c r e hx

/-- Helper: lift of the transformer-rejection fact through the whole chain
run. -/
theorem runFrom_transformerLog_threw (h : Handler) :
    ∀ (steps : List Step) (idx : Nat) (req : Req) (res : Res) (ctx : Ctx)
      (d : JSValue) (r : Res) (e : JSError),
      (runFrom h steps idx req res ctx).transformerLog = some (d, r, .threw e) →
      (runFrom h steps idx req res ctx).nextCalls = [e]
      ∧ (runFrom h steps idx req res ctx).res = r := by
  intro steps
  induction steps with
  | nil =>
    intro idx req res ctx d r e hx
    simp only [runFrom, runResolverPhase] at hx ⊢
    exact resolverPhaseCore_transformer_threw h req res ctx d r e hx
  | cons s rest ih =>
    intro idx req res ctx d r e hx
    rcases hEff : s req res proceedSignal ctx with ⟨req1, res1, o1⟩
    simp only [runFrom] at hx ⊢
    rw [hEff] at hx ⊢
    cases o1 with
    | threw e1 =>
      simp only [runEff, dispatchError] at hx
      simp at hx
    | ret rv =>
      simp only [runEff] at hx ⊢
      cases hhs : res1.headersSent with
      | true =>
        simp only [hhs, if_true] at hx
        simp at hx
      | false =>
        simp only [hhs, Bool.false_eq_true, if_false] at hx ⊢
        exact ih (idx + 1) req1 res1 (mergeReturn ctx rv) d r e hx

/-- Helper: the step logged at position k of a run carries chain index
`idx + k`: steps execute in registration order, without skips or repeats,
and never beyond the registered chain. -/
theorem runFrom_index (h : Handler) :
    ∀ (steps : List Step) (idx : Nat) (req : Req) (res : Res) (ctx : Ctx)
      (k : Nat) (l : StepLog),
      (runFrom h steps idx req res ctx).steps[k]? = some l →
      l.index = idx + k ∧ k < steps.length := by
  intro steps
  induction steps with
  | nil =>
    intro idx req res ctx k l hl
    simp [runFrom, runResolverPhase] at hl
  | cons s rest ih =>
    intro idx req res ctx k l hl
    rcases hEff : s req res proceedSignal ctx with ⟨req1, res1, o1⟩
    simp only [runFrom] at hl
    rw [hEff] at hl
    cases o1 with
    | threw e1 =>
      simp only [runEff, dispatchError] at hl
      cases k with
      | zero =>
        simp only [List.getElem?_cons_zero, Option.some.injEq] at hl
        subst hl
        exact ⟨rfl, by simp⟩
      | succ k1 => simp at hl
    | ret rv =>
      simp only [runEff] at hl
      cases hhs : res1.headersSent with
      | true =>
        simp only [hhs, if_true] at hl
        cases k with
        | zero =>
          simp only [List.getElem?_cons_zero, Option.some.injEq] at hl
          subst hl
          exact ⟨rfl, by simp⟩
        | succ k1 => simp at hl
      | false =>
        simp only [hhs, Bool.false_eq_true, if_false] at hl
        cases k with
        | zero =>
          simp only [List.getElem?_cons_zero, Option.some.injEq] at hl
          subst hl
          exact ⟨rfl, by simp⟩
        | succ k1 =>
          simp only [List.getElem?_cons_succ] at hl
          obtain ⟨h1, h2⟩ := ih (idx + 1) req1 res1 (mergeReturn ctx rv) k1 l hl
          constructor
          · rw [h1]
            omega
          · simpa using Nat.succ_lt_succ h2

/-- Helper: a run that logged no step at all entered the terminal resolver
phase. -/
theorem runFrom_steps_nil_entered (h : Handler) :
    ∀ (steps : List Step) (idx : Nat) (req : Req) (res : Res) (ctx : Ctx),
      (runFrom h steps idx req res ctx).steps = [] →
      (runFrom h steps idx req res ctx).resolverPhaseEntered = true := by
  intro steps
  cases steps with
  | nil => intro idx req res ctx _h0; rfl
  | cons s rest =>
    intro idx req res ctx h0
    rcases hEff : s req res proceedSignal ctx with ⟨req1, res1, o1⟩
    simp only [runFrom] at h0 ⊢
    rw [hEff] at h0 ⊢
    cases o1 with
    | threw e1 =>
      simp only [runEff, dispatchError] at h0
      simp at h0
    | ret rv =>
      simp only [runEff] at h0
      cases hhs : res1.headersSent with
      | true =>
        simp only [hhs, if_true] at h0
        simp at h0
      | false =>
        simp only [hhs, Bool.false_eq_true, if_false] at h0
        simp at h0

/-- Helper: after a step settles normally with the sink still unsent, the
executor advances - either another step is logged right after it or the
terminal resolver phase is entered. -/
theorem runFrom_advance (h : Handler) :
    ∀ (steps : List Step) (idx : Nat) (req : Req) (res : Res) (ctx : Ctx)
      (k : Nat) (l : StepLog) (v : JSValue),
      (runFrom h steps idx req res ctx).steps[k]? = some l →
      l.outcome = .ret v →
      l.resAfter.headersSent = false →
      ((runFrom h steps idx req res ctx).steps[k + 1]?).isSome = true
      ∨ (runFrom h steps idx req res ctx).resolverPhaseEntered = true := by
  intro steps
  induction steps with
  | nil =>
    intro idx req res ctx k l v hl _ho _hs
    simp [runFrom, runResolverPhase] at hl
  | cons s rest ih =>
    intro idx req res ctx k l v hl ho hsent
    rcases hEff : s req res proceedSignal ctx with ⟨req1, res1, o1⟩
    simp only [runFrom] at hl ⊢
    rw [hEff] at hl ⊢
    cases o1 with
    | threw e1 =>
      simp only [runEff, dispatchError] at hl ⊢
      cases k with
      | zero =>
        simp only [List.getElem?_cons_zero, Option.some.injEq] at hl
        subst hl
        simp at ho
      | succ k1 => simp at hl
    | ret rv =>
      simp only [runEff] at hl ⊢
      cases hhs : res1.headersSent with
      | true =>
        simp only [hhs, if_true] at hl ⊢
        cases k with
        | zero =>
          simp only [List.getElem?_cons_zero, Option.some.injEq] at hl
          subst hl
          simp only at hsent
          rw [hhs] at hsent
          cases hsent
        | succ k1 => simp at hl
      | false =>
        simp only [hhs, Bool.false_eq_true, if_false] at hl ⊢
        cases k with
        | zero =>
          cases hrest : (runFrom h rest (idx + 1) req1 res1 (mergeReturn ctx rv)).steps with
          | nil =>
            right
            simpa using runFrom_steps_nil_entered h rest (idx + 1) req1 res1
              (mergeReturn ctx rv) hrest
          | cons a t =>
            left
            simp [hrest]
        | succ k1 =>
          simp only [List.getElem?_cons_succ] at hl ⊢
          exact ih (idx + 1) req1 res1 (mergeReturn ctx rv) k1 l v hl ho hsent

/-- C2: for every chain whose steps do not write to the sink themselves, if
the step logged at position k (0-indexed; step k+1 in the claim's 1-indexed
counting) threw an `HTTPError` with status S and message M, and S has a
status text t, then the response is exactly one write with status S and
JSON body `{ errors: [M], type: t }`, steps k+2..N never execute, and the
resolver and the transformer never execute. -/
theorem catena_c2 (h : Handler) (req : Req) (k : Nat) (l : StepLog) (S : Nat) (M t : String)
    (hw : StepsNoWrite h)
    (hl : (h.express req).steps[k]? = some l)
    (ho : l.outcome = .threw (.httpError S M))
    (ht : HTTPStatusText S = some t) :
    (h.express req).res.statusCode = S
  ∧ (h.express req).res.writes
      = [Write.jsonW S (.obj [("errors", .arr [.str M]), ("type", .str t)])]
  ∧ (h.express req).steps.length = k + 1
  ∧ (h.express req).resolverPhaseEntered = false
  ∧ (h.express req).resolverLog = none
  ∧ (h.express req).transformerLog = none
  ∧ (h.express req).nextCalls = [] := by
  have hra := runFrom_noWrite_resAfter h h.chain 0 req _ [] hw k l hl
  obtain ⟨h1, h2, h3, h4, h5, h6⟩ :=
    runFrom_threw h h.chain 0 req _ [] k l (.httpError S M) hl ho
  have hres : (h.express req).res = dispatchRes l.resAfter (.httpError S M) := h1
  rw [hra] at hres
  refine ⟨?_, ?_, h3, h4, h5, h6, by simpa [dispatchNext] using h2⟩
  · rw [hres]
    rfl
  · rw [hres]
    simp [dispatchRes, Res.setStatus, Res.json, httpErrorBody, typeField, ht]

/-- C2 witness: the theorem applied to a two-step chain whose first step
throws `HTTPError(403, 'denied')`. -/
theorem catena_c2_witness :
    (hW2.express reqEmpty).res.statusCode = 403
  ∧ (hW2.express reqEmpty).res.writes
      = [Write.jsonW 403 (.obj [("errors", .arr [.str "denied"]), ("type", .str "Forbidden")])]
  ∧ (hW2.express reqEmpty).steps.length = 0 + 1
  ∧ (hW2.express reqEmpty).resolverPhaseEntered = false
  ∧ (hW2.express reqEmpty).resolverLog = none
  ∧ (hW2.express reqEmpty).transformerLog = none
  ∧ (hW2.express reqEmpty).nextCalls = [] :=
  catena_c2 hW2 reqEmpty 0 logW2 403 "denied" "Forbidden"
    (fun s hs => by
      rcases List.mem_cons.mp hs with rfl | hs2
      · intro req res cb c
        rfl
      · rcases List.mem_cons.mp hs2 with rfl | hs3
        · intro req res cb c
          rfl
        · cases hs3)
    rfl rfl rfl

/-- C4: for every chain and every k, the context handed to the step logged
at position k (hence the context after step k-1) equals the last-write-wins
merge, in registration order, of the object-shaped returns of the steps
logged before it, starting from the empty context - `applyReturn` merges a
non-null non-array object return via spread and leaves the context
unchanged for any other return (undefined, null, arrays, primitives, and
the empty-object contribution of validators is a neutral merge); the
resolver receives the fold over all logged steps. -/
theorem catena_c4 (h : Handler) (req : Req) :
    (∀ (k : Nat) (l : StepLog), (h.express req).steps[k]? = some l →
        l.ctxBefore = List.foldl applyReturn []
          (((h.express req).steps.take k).map StepLog.outcome))
  ∧ (∀ (c : Ctx) (r : Res) (o : StepOutcome), (h.express req).resolverLog = some (c, r, o) →
        c = List.foldl applyReturn [] ((h.express req).steps.map StepLog.outcome)) :=
  runFrom_ctx_fold h h.chain 0 req resInit []

/-- C4 witness: the theorem applied to a two-middleware chain where key
"b" is overwritten by the later middleware. -/
theorem catena_c4_witness :
    logW4.ctxBefore = List.foldl applyReturn []
      (((hW4.express reqEmpty).steps.take 1).map StepLog.outcome) :=
  (catena_c4 hW4 reqEmpty).1 1 logW4 rfl

/-- C6: if a step settles normally and the sink then reports headers sent,
execution stops immediately: the logged step is the last one, the resolver
and the transformer never execute, the executor performs no additional
write (the final sink is exactly the step's sink) and delegates nothing. -/
theorem catena_c6 (h : Handler) (req : Req) (k : Nat) (l : StepLog) (v : JSValue)
    (hl : (h.express req).steps[k]? = some l)
    (ho : l.outcome = .ret v)
    (hs : l.resAfter.headersSent = true) :
    (h.express req).res = l.resAfter
  ∧ (h.express req).nextCalls = []
  ∧ (h.express req).steps.length = k + 1
  ∧ (h.express req).resolverPhaseEntered = false
  ∧ (h.express req).resolverLog = none
  ∧ (h.express req).transformerLog = none :=
  runFrom_headersSent h h.chain 0 req resInit [] k l v hl ho hs

/-- C6 witness: the theorem applied to a chain whose first step answers
the request itself. -/
theorem catena_c6_witness :
    (hW6.express reqEmpty).res = logW6.resAfter
  ∧ (hW6.express reqEmpty).nextCalls = []
  ∧ (hW6.express reqEmpty).steps.length = 0 + 1
  ∧ (hW6.express reqEmpty).resolverPhaseEntered = false
  ∧ (hW6.express reqEmpty).resolverLog = none
  ∧ (hW6.express reqEmpty).transformerLog = none :=
  catena_c6 hW6 reqEmpty 0 logW6 .undefined rfl rfl rfl

/-- C7: every error that is neither a `ValidationError` nor an `HTTPError`
is delegated, unmodified and exactly once, to the host `next` callback,
with no core-authored write - whether it was thrown by a step, by the
resolver, or by the transformer. -/
theorem catena_c7 (h : Handler) (req : Req) :
    (∀ (k : Nat) (l : StepLog) (nm : String),
        (h.express req).steps[k]? = some l →
        l.outcome = .threw (.other nm) →
        (h.express req).nextCalls = [.other nm]
        ∧ (h.express req).res = l.resAfter
        ∧ (h.express req).resolverPhaseEntered = false)
  ∧ (∀ (c : Ctx) (r : Res) (nm : String),
        (h.express req).resolverLog = some (c, r, .threw (.other nm)) →
        (h.express req).nextCalls = [.other nm] ∧ (h.express req).res = r)
  ∧ (∀ (d : JSValue) (r : Res) (nm : String),
        (h.express req).transformerLog = some (d, r, .threw (.other nm)) →
        (h.express req).nextCalls = [.other nm] ∧ (h.express req).res = r) := by
  refine ⟨?_, ?_, ?_⟩
  · intro k l nm hl ho
    obtain ⟨h1, h2, h3, h4, h5, h6⟩ :=
      runFrom_threw h h.chain 0 req _ [] k l (.other nm) hl ho
    exact ⟨by simpa [dispatchNext] using h2, by simpa [dispatchRes] using h1, h4⟩
  · intro c r nm hx
    exact runFrom_resolverLog_threw h h.chain 0 req _ [] c r (.other nm) hx
  · intro d r nm hx
    exact runFrom_transformerLog_threw h h.chain 0 req _ [] d r (.other nm) hx

/-- C7 witness: the theorem applied to three runs where a step, the
resolver and the transformer respectively throw a plain error. -/
theorem catena_c7_witness :
    ((hW7a.express reqEmpty).nextCalls = [JSError.other "boom"]
      ∧ (hW7a.express reqEmpty).res = logW7a.resAfter
      ∧ (hW7a.express reqEmpty).resolverPhaseEntered = false)
  ∧ ((hW7b.express reqEmpty).nextCalls = [JSError.other "boomr"]
      ∧ (hW7b.express reqEmpty).res = resInit)
  ∧ ((hW7c.express reqEmpty).nextCalls = [JSError.other "boomt"]
      ∧ (hW7c.express reqEmpty).res = resInit) :=
  ⟨(catena_c7 hW7a reqEmpty).1 0 logW7a "boom" rfl rfl,
   (catena_c7 hW7b reqEmpty).2.1 [] resInit "boomr" rfl,
   (catena_c7 hW7c reqEmpty).2.2 (.str "data") resInit "boomt" rfl⟩

/-- C8: when a step throws an `HTTPError` whose status S is absent from
the status-text table, the dispatch still responds: it writes status S and
the JSON body `{ errors: [M], type: undefined }` - the `type` field is the
JS `undefined` rather than a failure. -/
theorem catena_c8 (h : Handler) (req : Req) (k : Nat) (l : StepLog) (S : Nat) (M : String)
    (hw : StepsNoWrite h)
    (hl : (h.express req).steps[k]? = some l)
    (ho : l.outcome = .threw (.httpError S M))
    (ht : HTTPStatusText S = none) :
    (h.express req).res.statusCode = S
  ∧ (h.express req).res.writes
      = [Write.jsonW S (.obj [("errors", .arr [.str M]), ("type", JSValue.undefined)])]
  ∧ (h.express req).res.headersSent = true := by
  have hra := runFrom_noWrite_resAfter h h.chain 0 req _ [] hw k l hl
  obtain ⟨h1, h2, h3, h4, h5, h6⟩ :=
    runFrom_threw h h.chain 0 req _ [] k l (.httpError S M) hl ho
  have hres : (h.express req).res = dispatchRes l.resAfter (.httpError S M) := h1
  rw [hra] at hres
  refine ⟨?_, ?_, ?_⟩
  · rw [hres]
    rfl
  · rw [hres]
    simp [dispatchRes, Res.setStatus, Res.json, httpErrorBody, typeField, ht]
  · rw [hres]
    rfl

/-- C8 witness: the theorem applied to a step throwing
`HTTPError(418, 'teapot')`, a status outside the table. -/
theorem catena_c8_witness :
    (hW8.express reqEmpty).res.statusCode = 418
  ∧ (hW8.express reqEmpty).res.writes
      = [Write.jsonW 418 (.obj [("errors", .arr [.str "teapot"]), ("type", JSValue.undefined)])]
  ∧ (hW8.express reqEmpty).res.headersSent = true :=
  catena_c8 hW8 reqEmpty 0 logW8 418 "teapot"
    (fun s hs => by
      rcases List.mem_cons.mp hs with rfl | hs2
      · intro req res cb c
        rfl
      · cases hs2)
    rfl rfl rfl

/-- C9 counterexample: the registration API does NOT maintain "the
Resolver is set at most once": calling `resolve` on a handler that already
has a resolver succeeds and replaces it, so the stored resolver after the
second call differs from the one after the first. -/
theorem catena_c9_counterexample :
    ((({} : Handler).resolve r1C9).resolve r2C9).resolver
      ≠ (({} : Handler).resolve r1C9).resolver := by
  intro hcontra
  simp only [Handler.resolve, Option.some.injEq] at hcontra
  have h2 := congrFun (congrFun (congrFun hcontra reqEmpty) resInit) []
  simp only [r1C9, r2C9] at h2
  have h3 := congrArg (fun p => p.1.statusCode) h2
  simp [Res.setStatus, resInit] at h3

/-- C9 (amended): steps are append-only - `middleware` and `validate` only
append one step and touch nothing else - and are never reordered or
removed; registration order is execution order (the step logged at
position k carries index k and k is within the registered chain);
`resolve` and `transform` store the given function, silently overwriting
any previous one (last registration wins, rather than at-most-once); and a
missing resolver is not rejected at registration - executing such a chain
delegates the resulting TypeError to the host with no core write. -/
theorem catena_c9 :
    (∀ (h : Handler) (mw : Step),
        (h.middleware mw).chain = h.chain ++ [wrapMiddleware mw]
        ∧ (h.middleware mw).resolver = h.resolver
        ∧ (h.middleware mw).transformer = h.transformer)
  ∧ (∀ (h : Handler) (loc : Location) (sch : Schema),
        (h.validate loc sch).chain = h.chain ++ [validationMiddleware loc sch]
        ∧ (h.validate loc sch).resolver = h.resolver
        ∧ (h.validate loc sch).transformer = h.transformer)
  ∧ (∀ (h : Handler) (rf : Resolver),
        (h.resolve rf).resolver = some rf
        ∧ (h.resolve rf).chain = h.chain
        ∧ (h.resolve rf).transformer = h.transformer)
  ∧ (∀ (h : Handler) (tf : Transformer),
        (h.transform tf).transformer = some tf
        ∧ (h.transform tf).chain = h.chain
        ∧ (h.transform tf).resolver = h.resolver)
  ∧ (∀ (h : Handler) (req : Req) (k : Nat) (l : StepLog),
        (h.express req).steps[k]? = some l → l.index = k ∧ k < h.chain.length)
  ∧ (∀ (req : Req) (t : Option Transformer),
        (Handler.express { chain := [], resolver := none, transformer := t } req).nextCalls
          = [resolverMissingError]
        ∧ (Handler.express { chain := [], resolver := none, transformer := t } req).res.writes
          = []) := by
  refine ⟨fun h mw => ⟨rfl, rfl, rfl⟩, fun h loc sch => ⟨rfl, rfl, rfl⟩,
    fun h rf => ⟨rfl, rfl, rfl⟩, fun h tf => ⟨rfl, rfl, rfl⟩, ?_, ?_⟩
  · intro h req k l hl
    simpa using runFrom_index h h.chain 0 req _ [] k l hl
  · intro req t
    exact ⟨rfl, rfl⟩

/-- C9 witness: the execution-order conjunct applied to a one-step
chain. -/
theorem catena_c9_witness : logW10.index = 0 ∧ 0 < hW10.chain.length :=
  catena_c9.2.2.2.2.1 hW10 reqEmpty 0 logW10 rfl

/-- C10: the proceed callback the executor passes to every step throws its
argument inside the step when invoked with an Error value, and has no
effect when invoked with no argument or with a non-Error value; and the
executor advances past any step that settles normally with the sink
unsent - regardless of whether the step ever invoked the callback, since
the advancement holds for every chain and every such logged step. -/
theorem catena_c10 :
    (∀ (e : JSError), proceedSignal (.errArg e) = .throws e)
  ∧ proceedSignal .noArg = .noEffect
  ∧ (∀ (v : JSValue), proceedSignal (.valArg v) = .noEffect)
  ∧ (∀ (h : Handler) (req : Req) (k : Nat) (l : StepLog) (v : JSValue),
        (h.express req).steps[k]? = some l →
        l.outcome = .ret v →
        l.resAfter.headersSent = false →
        ((h.express req).steps[k + 1]?).isSome = true
        ∨ (h.express req).resolverPhaseEntered = true) := by
  refine ⟨fun e => rfl, rfl, fun v => rfl, ?_⟩
  intro h req k l v hl ho hs
  exact runFrom_advance h h.chain 0 req _ [] k l v hl ho hs

/-- C10 witness: the advancement conjunct applied to a one-step chain
whose step never invokes the callback. -/
theorem catena_c10_witness :
    ((hW10.express reqEmpty).steps[0 + 1]?).isSome = true
    ∨ (hW10.express reqEmpty).resolverPhaseEntered = true :=
  catena_c10.2.2.2 hW10 reqEmpty 0 logW10 .undefined rfl rfl rfl

end Catena
